import Mathlib

/-!
Verification development for the F150 CAN bus visual grid monitor
(`can_visual_grid.py`).  The core of the program — frame parsing,
change tracking, selection handling, heuristic temperature decoding and
calibration regression — is embedded shallowly below; raw input lines are
modelled as `List Char` and Python string primitives (`strip`, `split`,
`startswith`, `int(·, 16)`) are given executable definitions.
-/

namespace F150

/-! ### Python string primitives -/

/-- Python `str.strip()`: drop leading and trailing whitespace. -/
def pyStrip (s : List Char) : List Char :=
  ((s.dropWhile Char.isWhitespace).reverse.dropWhile Char.isWhitespace).reverse

/-- Python `str.split(',')`. -/
def pySplitComma : List Char → List (List Char)
  | [] => [[]]
  | c :: rest =>
      let r := pySplitComma rest
      if c = ',' then [] :: r
      else
        match r with
        | [] => [[c]]
        | h :: t => (c :: h) :: t

/-- Value of a single hexadecimal digit, as accepted by Python `int(·, 16)`. -/
def hexDigitVal (c : Char) : Option Nat :=
  if '0' ≤ c ∧ c ≤ '9' then some (c.toNat - 48)
  else if 'a' ≤ c ∧ c ≤ 'f' then some (c.toNat - 87)
  else if 'A' ≤ c ∧ c ≤ 'F' then some (c.toNat - 55)
  else none

/-- Accumulating hex-digit parser used by `pyIntHex`. -/
def hexDigitsToNat : List Char → Nat → Option Nat
  | [], acc => some acc
  | c :: cs, acc =>
      match hexDigitVal c with
      | some d => hexDigitsToNat cs (16 * acc + d)
      | none => none

/-- Python `int(s, 16)` on a string that carries the `0x` tag, returning
`none` where Python raises `ValueError`. -/
def pyIntHex : List Char → Option Nat
  | '0' :: 'x' :: rest => if rest.isEmpty then none else hexDigitsToNat rest 0
  | _ => none

/-- Python `s.startswith('0x')`. -/
def isHexTagged : List Char → Bool
  | '0' :: 'x' :: _ => true
  | _ => false

/-- Python `s.startswith('#')`. -/
def startsWithHash : List Char → Bool
  | '#' :: _ => true
  | _ => false

/-! ### Frame Parser (`parse_can_message`) -/

/-- A validated CAN record: identifier string plus the list of parsed data
values (one per byte offset). -/
structure Frame where
  canId : List Char
  bytes : List Nat
deriving DecidableEq

/-- One iteration of the data-byte loop in `parse_can_message`: field
`4 + i`, when present and hex-tagged, goes through `int(·, 16)`; otherwise
the byte defaults to 0. -/
def parseByteField (parts : List (List Char)) (i : Nat) : Option Nat :=
  match parts[4 + i]? with
  | none => some 0
  | some f =>
      let hexVal := pyStrip f
      if !hexVal.isEmpty && isHexTagged hexVal then pyIntHex hexVal
      else some 0

/-- The 8-byte loop of `parse_can_message`; a failing field aborts the
whole line (Python's `except` clause returns `None`). -/
def parseBytesFrom (parts : List (List Char)) : List Nat → Option (List Nat)
  | [] => some []
  | i :: is =>
      match parseByteField parts i, parseBytesFrom parts is with
      | some v, some rest => some (v :: rest)
      | _, _ => none

/-- `parse_can_message`: reject comments, blank lines, short records and
records whose identifier field is not hex-tagged; otherwise parse the 8
data fields. -/
def parse_can_message (line : List Char) : Option Frame :=
  if startsWithHash line = true ∨ (pyStrip line).isEmpty = true then none
  else
    let parts := pySplitComma line
    if parts.length < 8 then none
    else
      match parts[2]? with
      | none => none
      | some f2 =>
          let canId := pyStrip f2
          if isHexTagged canId = false then none
          else
            match parseBytesFrom parts (List.range 8) with
            | none => none
            | some bs => some ⟨canId, bs⟩

/-! ### Selection & Decode Engine (`calculate_temperature_values`) -/

/-- `byte_to_ascii_display`: printable ASCII (32–126) maps to its
character, everything else to the placeholder dot. -/
def byte_to_ascii_display (v : Nat) : Char :=
  if 32 ≤ v ∧ v ≤ 126 then Char.ofNat v else '.'

/-- `is_printable_ascii`. -/
def is_printable_ascii (v : Nat) : Bool :=
  decide (32 ≤ v ∧ v ≤ 126)

/-- Tag of one heuristic interpretation produced by
`calculate_temperature_values`, abstracting the formatted description
string while preserving the data embedded in it. -/
inductive Desc where
  | asciiSingle (c : Char) (b : Nat)
  | subGuess (b off : Nat)
  | asciiPair (c0 c1 : Char) (b0 b1 : Nat)
  | hvacLow (position : Nat)
  | hvacHigh (position : Nat)
  | hvacTemp (tf position : Nat)
  | asciiPosition (position : Nat)
  | bothPrintable
  | onePrintable
  | mathOffset (off : Int)
  | addGuess (sum : Nat)
deriving DecidableEq

/-- One entry of the `results` list: `(description, temp_c, temp_f,
is_primary)`. -/
structure Candidate where
  desc : Desc
  temp_c : ℚ
  temp_f : ℚ
  is_primary : Bool
deriving DecidableEq

/-- Single-byte branch of `calculate_temperature_values`: ASCII rendering
followed by the subtractive guesses for offsets 0, 40, 50 filtered to
[32, 120] °F. -/
def singleByteResults (v : Nat) : List Candidate :=
  ⟨.asciiSingle (byte_to_ascii_display v) v, 0, 0, false⟩ ::
    (([0, 40, 50] : List Nat).foldr
      (fun (off : Nat) acc =>
        (let tf : Int := (v : Int) - (off : Int)
         if 32 ≤ tf ∧ tf ≤ 120 then
           [⟨.subGuess v off, ((tf : ℚ) - 32) * 5 / 9, (tf : ℚ), false⟩]
         else []) ++ acc)
      [])

/-- The digit-pair HVAC lookup: when both displayed characters are
decimal digits, `int` of the two-character string is the position code. -/
def hvacSection (b0 b1 : Nat) : List Candidate :=
  let a0 := byte_to_ascii_display b0
  let a1 := byte_to_ascii_display b1
  if a0.isDigit && a1.isDigit then
    let position := [a0, a1].foldl (fun acc c => 10 * acc + (c.toNat - 48)) 0
    if position = 60 then [⟨.hvacLow position, 10, 50, true⟩]
    else if position = 90 then [⟨.hvacHigh position, 35, 95, true⟩]
    else if 65 ≤ position ∧ position ≤ 84 then
      [⟨.hvacTemp (position - 5) position, (((position : ℚ) - 5) - 32) * 5 / 9,
        ((position : ℚ) - 5), true⟩]
    else [⟨.asciiPosition position, 0, 0, true⟩]
  else []

/-- Printability summary of the two bytes. -/
def printabilitySection (b0 b1 : Nat) : List Candidate :=
  if is_printable_ascii b0 && is_printable_ascii b1 then
    [⟨.bothPrintable, 0, 0, true⟩]
  else if is_printable_ascii b0 || is_printable_ascii b1 then
    [⟨.onePrintable, 0, 0, false⟩]
  else []

/-- Legacy linear-offset heuristic `(byte0 - 0x36) * 10 + (byte1 - 0x30)`,
accepted in [0, 30]. -/
def legacySection (b0 b1 : Nat) : List Candidate :=
  let off : Int := ((b0 : Int) - 54) * 10 + ((b1 : Int) - 48)
  if 0 ≤ off ∧ off ≤ 30 then [⟨.mathOffset off, 0, 0, false⟩] else []

/-- The three byte-combination checks enumerated by the final loop of the
two-byte branch. -/
inductive ComboKind where
  | BE
  | LE
  | ADD
deriving DecidableEq

/-- The `[("BE", combined_be), ("LE", combined_le), ("ADD", simple_add)]`
list the code iterates over. -/
def comboList (b0 b1 : Nat) : List (ComboKind × Nat) :=
  [(.BE, (b0 <<< 8) ||| b1), (.LE, (b1 <<< 8) ||| b0), (.ADD, b0 + b1)]

/-- Loop body: only the `ADD` form with sum below 200 whose `sum - 40`
lands in [32, 120] °F is converted to a candidate. -/
def comboCandidate (k : ComboKind) (testVal : Nat) : List Candidate :=
  if k = .ADD ∧ testVal < 200 then
    let tf : Int := (testVal : Int) - 40
    if 32 ≤ tf ∧ tf ≤ 120 then
      [⟨.addGuess testVal, ((tf : ℚ) - 32) * 5 / 9, (tf : ℚ), false⟩]
    else []
  else []

/-- Candidates appended by the byte-combination loop. -/
def comboSection (b0 b1 : Nat) : List Candidate :=
  (comboList b0 b1).foldr (fun p acc => comboCandidate p.1 p.2 ++ acc) []

/-- Two-byte branch of `calculate_temperature_values`, appending the five
sections in the order of the code. -/
def twoByteResults (b0 b1 : Nat) : List Candidate :=
  ⟨.asciiPair (byte_to_ascii_display b0) (byte_to_ascii_display b1) b0 b1, 0, 0, true⟩ ::
    (hvacSection b0 b1 ++ printabilitySection b0 b1 ++ legacySection b0 b1 ++
      comboSection b0 b1)

/-- `calculate_temperature_values(value1, value2=None)`. -/
def calculate_temperature_values (value1 : Nat) (value2 : Option Nat) : List Candidate :=
  match value2 with
  | none => singleByteResults value1
  | some v2 => twoByteResults value1 v2

/-! ### Calibration Regression Module (`calculate_temperature_formula`) -/

/-- One entry of `calibration_data`: `(actual_temp, combined_value,
timestamp)`. -/
structure CalPoint where
  actual_temp : ℚ
  can_value : Int
  timestamp : ℚ
deriving DecidableEq

/-- Outcome of the least-squares fit.  `divisionByZero` models the
`ZeroDivisionError` Python raises when the integer denominator
`n * sum_x2 - sum_x * sum_x` is zero; `insufficientData` models the early
`return` for fewer than 2 points. -/
inductive FitResult where
  | insufficientData
  | divisionByZero
  | ok (m b : ℚ)
deriving DecidableEq

/-- `calculate_temperature_formula` over the calibration data. -/
def calculate_temperature_formula (data : List CalPoint) : FitResult :=
  if data.length < 2 then .insufficientData
  else
    let x_vals := data.map (fun p => p.can_value)
    let n : Int := data.length
    let sum_x := x_vals.sum
    let sum_y := (data.map (fun p => p.actual_temp)).sum
    let sum_xy := (data.map (fun p => (p.can_value : ℚ) * p.actual_temp)).sum
    let sum_x2 := (x_vals.map (fun x => x * x)).sum
    let den := n * sum_x2 - sum_x * sum_x
    if den = 0 then .divisionByZero
    else
      let m := ((n : ℚ) * sum_xy - (sum_x : ℚ) * sum_y) / ((den : Int) : ℚ)
      let b := (sum_y - m * (sum_x : ℚ)) / (n : ℚ)
      .ok m b

/-! ### Session state and event step (`CANVisualGrid`) -/

/-- Identifier key of the change-tracking store. -/
abbrev Ident := List Char

/-- A selectable byte slot: `(pid, byte_index)`. -/
abbrev Cell := Ident × Nat

/-- Display mode toggled by the `A` key. -/
inductive DisplayMode where
  | HEX
  | ASCII
deriving DecidableEq

/-- The mutable session state of `CANVisualGrid` (the fields the core
logic touches), with the thread-local `last_logged_combined` of
`read_serial_data` included. -/
structure State where
  pid_list : List Ident
  current_values : Ident → List Nat
  change_times : Ident → List ℚ
  total_messages : Nat
  selected_cells : List Cell
  calibration_mode : Bool
  calibration_data : List CalPoint
  display_mode : DisplayMode
  scroll_offset : Nat
  last_logged_combined : Option Nat

/-- State at construction time: empty store (`defaultdict` of `[0] * 8`),
no selection, calibration off. -/
def initState : State where
  pid_list := []
  current_values := fun _ => List.replicate 8 0
  change_times := fun _ => List.replicate 8 0
  total_messages := 0
  selected_cells := []
  calibration_mode := false
  calibration_data := []
  display_mode := .HEX
  scroll_offset := 0
  last_logged_combined := none

/-- Pointwise update of a store map (Python dict assignment). -/
def updMap {α : Type} (f : Ident → α) (k : Ident) (v : α) : Ident → α :=
  fun k2 => if k2 = k then v else f k2

/-- The store-update block of `read_serial_data`: register the identifier
if new, then for each of the 8 offsets stamp `change_times` on a value
difference and write the new value. -/
def recordFrame (s : State) (cid : Ident) (bytes : List Nat) (now : ℚ) : State :=
  let pids := if cid ∈ s.pid_list then s.pid_list else s.pid_list ++ [cid]
  let old := s.current_values cid
  let oldT := s.change_times cid
  let newT := (List.range 8).map fun i =>
    if old.getD i 0 ≠ bytes.getD i 0 then now else oldT.getD i 0
  let newV := (List.range 8).map fun i => bytes.getD i 0
  { s with
      pid_list := pids
      current_values := updMap s.current_values cid newV
      change_times := updMap s.change_times cid newT }

/-- Console output emitted by the logging block of `read_serial_data`. -/
inductive Output where
  | logLine (b0 b1 combined : Nat)
  | calibrationPrompt (combined : Nat)
deriving DecidableEq

/-- The logging block of `read_serial_data`: with exactly 2 selected
cells, an update for the first-selected PID whose combined value differs
from the last logged one prints a log line (plus a calibration prompt in
calibration mode) and remembers the combined value. -/
def logStep (s : State) (cid : Ident) : State × List Output :=
  match s.selected_cells with
  | [c1, c2] =>
      if cid = c1.1 then
        let b0 := (s.current_values c1.1).getD c1.2 0
        let b1 := (s.current_values c2.1).getD c2.2 0
        let combined := (b0 <<< 8) ||| b1
        if s.last_logged_combined ≠ some combined then
          ({ s with last_logged_combined := some combined },
            Output.logLine b0 b1 combined ::
              (if s.calibration_mode then [Output.calibrationPrompt combined] else []))
        else (s, [])
      else (s, [])
  | _ => (s, [])

/-- One iteration of `read_serial_data` on one input line: parse, and on
success update the store, run the logging block and count the message. -/
def ingestLine (s : State) (line : List Char) (now : ℚ) : State × List Output :=
  match parse_can_message line with
  | none => (s, [])
  | some f =>
      let s1 := recordFrame s f.canId f.bytes now
      let s2 := (logStep s1 f.canId).1
      ({ s2 with total_messages := s2.total_messages + 1 }, (logStep s1 f.canId).2)

/-- `(value_of_slot_0 << 8) | value_of_slot_1` over the current selection,
defined only when exactly 2 slots are selected (lines 207–215 and
100–105 of the source). -/
def combined_value (s : State) : Option Nat :=
  match s.selected_cells with
  | [c1, c2] =>
      some ((((s.current_values c1.1).getD c1.2 0) <<< 8) |||
            ((s.current_values c2.1).getD c2.2 0))
  | _ => none

/-- Rows visible in the grid: `(WINDOW_HEIGHT - START_Y - 150) //
CELL_HEIGHT`. -/
def maxVisibleRows : Nat := (900 - 40 - 150) / 24

/-- The left-click selection logic of `handle_events`: deselect a selected
cell, append below capacity, otherwise evict the oldest selection. -/
def toggleCell (sel : List Cell) (cell : Cell) : List Cell :=
  if cell ∈ sel then sel.erase cell
  else if sel.length < 2 then sel ++ [cell]
  else sel.tail ++ [cell]

/-- Events handled by the main loop and the ingestion thread. -/
inductive Event where
  | serialLine (line : List Char) (now : ℚ)
  | keyA
  | keyT
  | keyReturn
  | keySpace
  | keyUp
  | keyDown
  | keyC
  | wheelUp
  | wheelDown
  | mouseClick (cell : Option Cell)

/-- The state transition of one event, following `handle_events` and
`read_serial_data`.  `keyT` toggling calibration off only prints the
collected data and the fitted formula; `keyReturn`
(`handle_temperature_input`) also only prints. -/
def step (s : State) (e : Event) : State :=
  match e with
  | .serialLine line now => (ingestLine s line now).1
  | .keyA =>
      { s with display_mode := if s.display_mode = .HEX then .ASCII else .HEX }
  | .keyT => { s with calibration_mode := !s.calibration_mode }
  | .keyReturn => s
  | .keySpace => s
  | .keyUp => { s with scroll_offset := s.scroll_offset - 1 }
  | .keyDown =>
      { s with scroll_offset := min (s.pid_list.length - maxVisibleRows) (s.scroll_offset + 1) }
  | .keyC => { s with selected_cells := [] }
  | .wheelUp => { s with scroll_offset := s.scroll_offset - 3 }
  | .wheelDown =>
      { s with scroll_offset := min (s.pid_list.length - maxVisibleRows) (s.scroll_offset + 3) }
  | .mouseClick none => s
  | .mouseClick (some c) => { s with selected_cells := toggleCell s.selected_cells c }

/-- The serial loop of `read_serial_data` over a finite sequence of
timestamped input lines. -/
def runLines (s : State) (ls : List (List Char × ℚ)) : State :=
  ls.foldl (fun st p => (ingestLine st p.1 p.2).1) s

/-- The main loop over an arbitrary finite event sequence. -/
def runEvents (es : List Event) : State :=
  es.foldl step initState

/-! ### Helper lemmas -/

theorem range8_eq : List.range 8 = [0, 1, 2, 3, 4, 5, 6, 7] := rfl

theorem getD_range8_map {α : Type} (f : Nat → α) (d : α) (i : Nat) (h : i < 8) :
    (((List.range 8).map f).getD i d) = f i := by
  rw [range8_eq]
  interval_cases i <;> rfl

theorem logStep_preserves (s : State) (cid : Ident) :
    (logStep s cid).1.current_values = s.current_values ∧
    (logStep s cid).1.change_times = s.change_times ∧
    (logStep s cid).1.total_messages = s.total_messages ∧
    (logStep s cid).1.calibration_data = s.calibration_data ∧
    (logStep s cid).1.selected_cells = s.selected_cells ∧
    (logStep s cid).1.pid_list = s.pid_list ∧
    (logStep s cid).1.calibration_mode = s.calibration_mode := by
  unfold logStep
  split
  · dsimp only
    split_ifs <;> exact ⟨rfl, rfl, rfl, rfl, rfl, rfl, rfl⟩
  · exact ⟨rfl, rfl, rfl, rfl, rfl, rfl, rfl⟩

theorem recordFrame_preserves (s : State) (cid : Ident) (bytes : List Nat) (now : ℚ) :
    (recordFrame s cid bytes now).total_messages = s.total_messages ∧
    (recordFrame s cid bytes now).selected_cells = s.selected_cells ∧
    (recordFrame s cid bytes now).calibration_data = s.calibration_data ∧
    (recordFrame s cid bytes now).calibration_mode = s.calibration_mode ∧
    (recordFrame s cid bytes now).last_logged_combined = s.last_logged_combined :=
  ⟨rfl, rfl, rfl, rfl, rfl⟩

theorem ingestLine_total (s : State) (line : List Char) (now : ℚ) :
    (ingestLine s line now).1.total_messages =
      (if (parse_can_message line).isSome then s.total_messages + 1 else s.total_messages) := by
  unfold ingestLine
  cases hp : parse_can_message line with
  | none => simp
  | some f =>
      simp only [Option.isSome_some, if_true]
      have h := (logStep_preserves (recordFrame s f.canId f.bytes now) f.canId).2.2.1
      show (logStep (recordFrame s f.canId f.bytes now) f.canId).1.total_messages + 1 = _
      rw [h]
      rfl

/-! ### Claim C1: change tracking -/

/-- Claim C1: for an ingested parsed frame and any byte offset below 8,
`change_times` for that slot is set to `now` exactly when the newly parsed
value differs from the previously stored one (otherwise it keeps its old
stamp), and the stored value becomes the parsed value (so an equal value
leaves the observable value unchanged). -/
theorem change_tracking_iff (s : State) (line : List Char) (f : Frame) (now : ℚ) (i : Nat)
    (hp : parse_can_message line = some f) (hi : i < 8) :
    (((ingestLine s line now).1.change_times f.canId).getD i 0 =
      (if (s.current_values f.canId).getD i 0 ≠ f.bytes.getD i 0 then now
       else (s.change_times f.canId).getD i 0)) ∧
    (((ingestLine s line now).1.current_values f.canId).getD i 0 = f.bytes.getD i 0) := by
  unfold ingestLine
  simp only [hp]
  have hcv := (logStep_preserves (recordFrame s f.canId f.bytes now) f.canId).1
  have hct := (logStep_preserves (recordFrame s f.canId f.bytes now) f.canId).2.1
  constructor
  · show ((logStep (recordFrame s f.canId f.bytes now) f.canId).1.change_times f.canId).getD i 0 = _
    rw [hct]
    simp [recordFrame, updMap, List.getElem?_range, hi]
  · show ((logStep (recordFrame s f.canId f.bytes now) f.canId).1.current_values f.canId).getD i 0 = _
    rw [hcv]
    simp [recordFrame, updMap, List.getElem?_range, hi]

def lineW : List Char := "t,x,0x3C4,8,0x00,0x00,0x00,0x00,0x00,0x00,0x41,0x42".toList

def cidW : Ident := "0x3C4".toList

def bytesW : List Nat := [0, 0, 0, 0, 0, 0, 65, 66]

/-- Witness for C1 at a concrete frame: byte 6 changes from 0 to 0x41 at
t = 10, so its slot is stamped 10 and holds 65. -/
theorem change_tracking_iff_witness :
    (((ingestLine initState lineW 10).1.change_times cidW).getD 6 0 = 10) ∧
    (((ingestLine initState lineW 10).1.current_values cidW).getD 6 0 = 65) := by
  have h := change_tracking_iff initState lineW ⟨cidW, bytesW⟩ 10 6 (by decide) (by decide)
  exact ⟨h.1.trans (by decide), h.2.trans (by decide)⟩

/-! ### Claim C10: total message counter -/

/-- Claim C10: the total-messages counter counts exactly the successfully
parsed lines — after any sequence of input lines it has grown by the
number of lines on which `parse_can_message` succeeds, so blank, comment
and malformed lines leave it unchanged. -/
theorem total_messages_counts_parsed (s : State) (ls : List (List Char × ℚ)) :
    (runLines s ls).total_messages =
      s.total_messages + ls.countP (fun p => (parse_can_message p.1).isSome) := by
  induction ls generalizing s with
  | nil => simp [runLines]
  | cons p ps ih =>
      show (runLines ((ingestLine s p.1 p.2).1) ps).total_messages = _
      rw [ih, ingestLine_total, List.countP_cons]
      cases hp : (parse_can_message p.1).isSome <;> (simp [hp]; try omega)

/-! ### Claim C2: degenerate calibration fit -/

theorem sum_can_values_const (data : List CalPoint) (c : Int)
    (h : ∀ p ∈ data, p.can_value = c) :
    (data.map (fun p => p.can_value)).sum = data.length * c ∧
    ((data.map (fun p => p.can_value)).map (fun x => x * x)).sum = data.length * (c * c) := by
  induction data with
  | nil => simp
  | cons p ps ih =>
      have hp : p.can_value = c := h p (by simp)
      have hps := ih (fun q hq => h q (List.mem_cons_of_mem _ hq))
      constructor
      · rw [List.map_cons, List.sum_cons, hp, hps.1, List.length_cons]
        push_cast
        ring
      · rw [List.map_cons, List.map_cons, List.sum_cons, hp, hps.2, List.length_cons]
        push_cast
        ring

/-- Claim C2 (amended): the fit returns the InsufficientData condition
for fewer than 2 points, but with 2 or more points all sharing the same
observed x-value the least-squares denominator is zero and the code
raises a division error instead of reporting InsufficientData. -/
theorem fit_degenerate (data : List CalPoint) (c : Int) :
    (data.length < 2 → calculate_temperature_formula data = .insufficientData) ∧
    (2 ≤ data.length → (∀ p ∈ data, p.can_value = c) →
      calculate_temperature_formula data = .divisionByZero) := by
  constructor
  · intro h
    unfold calculate_temperature_formula
    rw [if_pos h]
  · intro h hall
    have hs := sum_can_values_const data c hall
    have hden : (data.length : Int) *
          ((data.map (fun p => p.can_value)).map (fun x => x * x)).sum -
          (data.map (fun p => p.can_value)).sum * (data.map (fun p => p.can_value)).sum = 0 := by
      rw [hs.1, hs.2]
      ring
    unfold calculate_temperature_formula
    rw [if_neg (by omega)]
    dsimp only
    rw [if_pos hden]

/-- Counterexample to C2 as stated: two calibration points with identical
observed x-values make the integer denominator zero, so the code raises a
division error (modelled as `divisionByZero`) instead of returning the
InsufficientData condition. -/
theorem fit_divide_by_zero_cex :
    calculate_temperature_formula [⟨50, 100, 0⟩, ⟨95, 100, 1⟩] = .divisionByZero ∧
    FitResult.divisionByZero ≠ FitResult.insufficientData := by
  exact ⟨by decide, by decide⟩

/-- Witness for C2 (amended) at concrete point lists. -/
theorem fit_degenerate_witness :
    calculate_temperature_formula [⟨50, 100, 0⟩] = .insufficientData ∧
    calculate_temperature_formula [⟨1, 7, 0⟩, ⟨2, 7, 1⟩] = .divisionByZero :=
  ⟨(fit_degenerate [⟨50, 100, 0⟩] 0).1 (by decide),
   (fit_degenerate [⟨1, 7, 0⟩, ⟨2, 7, 1⟩] 7).2 (by decide) (by decide)⟩

/-! ### Claim C3: parser rejection behaviour -/

theorem parseBytesFrom_none_of_mem (parts : List (List Char)) (is : List Nat) (i : Nat)
    (hi : i ∈ is) (h : parseByteField parts i = none) :
    parseBytesFrom parts is = none := by
  induction is with
  | nil => cases hi
  | cons j js ih =>
      rcases List.mem_cons.1 hi with rfl | hmem
      · unfold parseBytesFrom
        rw [h]
      · unfold parseBytesFrom
        rw [ih hmem]
        cases parseByteField parts j <;> rfl

theorem parseBytesFrom_some_pointwise (parts : List (List Char)) :
    ∀ is bs : List Nat, parseBytesFrom parts is = some bs →
      bs.length = is.length ∧
      ∀ j, j < is.length → parseByteField parts (is.getD j 0) = some (bs.getD j 0) := by
  intro is
  induction is with
  | nil =>
      intro bs h
      obtain rfl : [] = bs := Option.some.inj h
      exact ⟨rfl, fun j hj => absurd hj (by simp)⟩
  | cons i is ih =>
      intro bs h
      unfold parseBytesFrom at h
      cases hv : parseByteField parts i with
      | none =>
          rw [hv] at h
          cases h
      | some v =>
          cases hr : parseBytesFrom parts is with
          | none =>
              rw [hv, hr] at h
              cases h
          | some rest =>
              rw [hv, hr] at h
              obtain rfl : v :: rest = bs := Option.some.inj h
              have hrec := ih rest hr
              refine ⟨by simp [hrec.1], ?_⟩
              intro j hj
              cases j with
              | zero => simpa using hv
              | succ j => simpa using hrec.2 j (by simpa using hj)

theorem range8_getD (j : Nat) (hj : j < 8) : (List.range 8).getD j 0 = j := by
  rw [range8_eq]
  interval_cases j <;> rfl

/-- Claim C3 (amended): the parser returns nothing — and the ingestion
step then leaves the state untouched — for comment lines, blank lines,
records with fewer than 8 comma-separated fields, and records with a
hex-tagged data field whose hex digits fail to parse; a present non
hex-tagged (or absent) data field defaults to 0; an accepted hex-tagged
field carries exactly its parsed hex value, with no 0–255 range check. -/
theorem parse_malformed_rejected (s : State) (line : List Char) (now : ℚ) :
    ((startsWithHash line = true ∨ (pyStrip line).isEmpty = true) →
        parse_can_message line = none) ∧
    ((pySplitComma line).length < 8 → parse_can_message line = none) ∧
    (∀ i, i < 8 → ∀ f, (pySplitComma line)[4 + i]? = some f →
      (!(pyStrip f).isEmpty && isHexTagged (pyStrip f)) = true →
      pyIntHex (pyStrip f) = none → parse_can_message line = none) ∧
    (parse_can_message line = none → ingestLine s line now = (s, [])) ∧
    (∀ f, parse_can_message line = some f → ∀ j, j < 8 →
      parseByteField (pySplitComma line) j = some (f.bytes.getD j 0)) ∧
    (∀ parts (j : Nat) (g : List Char), parts[4 + j]? = some g →
      (!(pyStrip g).isEmpty && isHexTagged (pyStrip g)) = false →
      parseByteField parts j = some 0) ∧
    (∀ parts (j : Nat), parts[4 + j]? = (none : Option (List Char)) →
      parseByteField parts j = some 0) ∧
    (∀ parts (j : Nat) (g : List Char) (v : Nat), parts[4 + j]? = some g →
      (!(pyStrip g).isEmpty && isHexTagged (pyStrip g)) = true →
      pyIntHex (pyStrip g) = some v → parseByteField parts j = some v) := by
  refine ⟨?_, ?_, ?_, ?_, ?_, ?_, ?_, ?_⟩
  · intro h
    unfold parse_can_message
    rw [if_pos h]
  · intro h
    unfold parse_can_message
    dsimp only
    split_ifs <;> rfl
  · intro i hi f hf htag hfail
    have hb : parseByteField (pySplitComma line) i = none := by
      unfold parseByteField
      rw [hf]
      dsimp only
      rw [if_pos htag]
      exact hfail
    unfold parse_can_message
    dsimp only
    split_ifs with h1 h2
    · rfl
    · rfl
    · cases h2p : (pySplitComma line)[2]? with
      | none => simp only [h2p]
      | some f2 =>
          simp only [h2p]
          split_ifs with h3
          · rfl
          · rw [parseBytesFrom_none_of_mem _ _ i (by simp [List.mem_range]; omega) hb]
  · intro h
    unfold ingestLine
    rw [h]
  · intro f hf j hj
    unfold parse_can_message at hf
    dsimp only at hf
    split_ifs at hf
    all_goals first
      | exact Option.noConfusion hf
      | (cases h2p : (pySplitComma line)[2]? with
         | none =>
             rw [h2p] at hf
             exact Option.noConfusion hf
         | some f2 =>
             rw [h2p] at hf
             dsimp only at hf
             split_ifs at hf
             all_goals first
               | exact Option.noConfusion hf
               | (cases hbs : parseBytesFrom (pySplitComma line) (List.range 8) with
                  | none =>
                      rw [hbs] at hf
                      exact Option.noConfusion hf
                  | some bs =>
                      rw [hbs] at hf
                      obtain rfl : (⟨pyStrip f2, bs⟩ : Frame) = f := Option.some.inj hf
                      have hpt := (parseBytesFrom_some_pointwise (pySplitComma line)
                        (List.range 8) bs hbs).2 j (by simpa using hj)
                      rwa [range8_getD j hj] at hpt))
  · intro parts j g hg htag
    unfold parseByteField
    rw [hg]
    dsimp only
    rw [if_neg (by simp [htag])]
  · intro parts j hg
    unfold parseByteField
    rw [hg]
  · intro parts j g v hg htag hv
    unfold parseByteField
    rw [hg]
    dsimp only
    rw [if_pos htag]
    exact hv

/-- Counterexample to C3 as stated: a record whose hex-tagged data field
holds `0x1FF` = 511 is accepted with the out-of-byte-range value 511, not
discarded and not reduced to the 0–255 range. -/
theorem parse_accepts_wide_value_cex :
    parse_can_message ("a,b,0x123,c,0x1FF,0x00,0x00,0x00".toList) =
      some ⟨"0x123".toList, [511, 0, 0, 0, 0, 0, 0, 0]⟩ ∧
    ¬ (511 : Nat) ≤ 255 :=
  ⟨by decide, by decide⟩

/-- Witness for C3 (amended): the short record `bad,data` parses to
nothing and leaves the state untouched. -/
theorem parse_malformed_witness :
    parse_can_message ("bad,data".toList) = none ∧
    ingestLine initState ("bad,data".toList) 3 = (initState, []) := by
  have h := parse_malformed_rejected initState ("bad,data".toList) 3
  have hnone := h.2.1 (by decide)
  exact ⟨hnone, h.2.2.2.1 hnone⟩

/-! ### Claim C4: combined value pairs big-endian in selection order -/

theorem shiftLeft8_lor_eq (a b : Nat) (hb : b < 256) : (a <<< 8) ||| b = 256 * a + b := by
  have hb' : b < 2 ^ 8 := by norm_num [hb]
  rw [Nat.shiftLeft_eq, Nat.mul_comm a (2 ^ 8), ← Nat.mul_add_lt_is_or hb' a]

/-- Claim C4: whenever exactly 2 slots are selected the combined value is
the first-selected slot's value as high byte or-ed with the second's,
which for a low byte below 256 equals `256 * v0 + v1`. -/
theorem combined_value_big_endian (s : State) (c1 c2 : Cell)
    (hsel : s.selected_cells = [c1, c2])
    (hb : (s.current_values c2.1).getD c2.2 0 < 256) :
    combined_value s =
      some (256 * ((s.current_values c1.1).getD c1.2 0) +
        (s.current_values c2.1).getD c2.2 0) := by
  unfold combined_value
  rw [hsel]
  dsimp only
  rw [shiftLeft8_lor_eq _ _ hb]

def sC4 : State :=
  { initState with
      selected_cells := [(['a'], 6), (['b'], 7)]
      current_values := updMap (updMap initState.current_values
        ['a'] [0, 0, 0, 0, 0, 0, 65, 0]) ['b'] [0, 0, 0, 0, 0, 0, 0, 66] }

/-- Witness for C4: selected slot values 0x41 and 0x42 in selection order
combine to 0x4142 = 16706. -/
theorem combined_value_big_endian_witness : combined_value sC4 = some 16706 := by
  have h := combined_value_big_endian sC4 (['a'], 6) (['b'], 7) rfl (by decide)
  exact h.trans (by decide)

/-! ### Claim C5: bounded distinct selection with FIFO eviction -/

theorem toggleCell_inv (sel : List Cell) (c : Cell)
    (hlen : sel.length ≤ 2) (hnd : sel.Nodup) :
    (toggleCell sel c).length ≤ 2 ∧ (toggleCell sel c).Nodup := by
  unfold toggleCell
  split_ifs with hmem hlt
  · exact ⟨le_trans (List.Sublist.length_le (List.erase_sublist _ _)) hlen, hnd.erase c⟩
  · refine ⟨by simp; omega, ?_⟩
    rw [List.nodup_append]
    exact ⟨hnd, List.nodup_singleton c,
      fun a ha hb => hmem ((List.mem_singleton.1 hb) ▸ ha)⟩
  · have h2 : sel.length = 2 := by omega
    obtain ⟨a, b, rfl⟩ := List.length_eq_two.1 h2
    have hcb : c ≠ b := by
      intro h
      exact hmem (by simp [h])
    refine ⟨by simp, ?_⟩
    simp [List.nodup_cons, Ne.symm hcb]

theorem toggleCell_evicts (a b c : Cell) (hc : c ∉ [a, b]) :
    toggleCell [a, b] c = [b, c] := by
  unfold toggleCell
  rw [if_neg hc, if_neg (by simp)]
  rfl

theorem ingest_selected (s : State) (line : List Char) (now : ℚ) :
    (ingestLine s line now).1.selected_cells = s.selected_cells := by
  unfold ingestLine
  cases hp : parse_can_message line with
  | none => rfl
  | some f =>
      show (logStep (recordFrame s f.canId f.bytes now) f.canId).1.selected_cells = _
      rw [(logStep_preserves _ _).2.2.2.2.1]
      rfl

theorem step_sel_inv (s : State) (e : Event)
    (h : s.selected_cells.length ≤ 2 ∧ s.selected_cells.Nodup) :
    (step s e).selected_cells.length ≤ 2 ∧ (step s e).selected_cells.Nodup := by
  cases e with
  | serialLine line now => simpa [step, ingest_selected s line now] using h
  | mouseClick c =>
      cases c with
      | none => simpa [step] using h
      | some c => simpa [step] using toggleCell_inv s.selected_cells c h.1 h.2
  | keyA => simpa [step] using h
  | keyT => simpa [step] using h
  | keyReturn => simpa [step] using h
  | keySpace => simpa [step] using h
  | keyUp => simpa [step] using h
  | keyDown => simpa [step] using h
  | keyC => simp [step]
  | wheelUp => simpa [step] using h
  | wheelDown => simpa [step] using h

theorem runEvents_sel_inv (es : List Event) :
    (runEvents es).selected_cells.length ≤ 2 ∧ (runEvents es).selected_cells.Nodup := by
  have main : ∀ (es : List Event) (s : State),
      s.selected_cells.length ≤ 2 ∧ s.selected_cells.Nodup →
      (es.foldl step s).selected_cells.length ≤ 2 ∧ (es.foldl step s).selected_cells.Nodup := by
    intro es
    induction es with
    | nil => exact fun s h => h
    | cons e es ih => exact fun s h => ih _ (step_sel_inv s e h)
  exact main es initState (by simp [initState])

/-- Claim C5: after any event sequence the selection holds at most 2
pairwise-distinct slots, and clicking a new slot while 2 are selected
evicts exactly the first-selected slot and appends the new one,
preserving the survivor's position. -/
theorem selection_bounded_fifo (es : List Event) (a b c : Cell) (hc : c ∉ [a, b]) :
    ((runEvents es).selected_cells.length ≤ 2 ∧ (runEvents es).selected_cells.Nodup) ∧
    toggleCell [a, b] c = [b, c] :=
  ⟨runEvents_sel_inv es, toggleCell_evicts a b c hc⟩

def cellP : Cell := (['p'], 0)

def cellQ : Cell := (['q'], 1)

def cellR : Cell := (['r'], 2)

/-- Witness for C5 at three concrete distinct cells. -/
theorem selection_bounded_fifo_witness :
    (((runEvents [Event.mouseClick (some cellP), Event.mouseClick (some cellQ)]).selected_cells.length ≤ 2) ∧
      (runEvents [Event.mouseClick (some cellP), Event.mouseClick (some cellQ)]).selected_cells.Nodup) ∧
    toggleCell [cellP, cellQ] cellR = [cellQ, cellR] :=
  selection_bounded_fifo [Event.mouseClick (some cellP), Event.mouseClick (some cellQ)]
    cellP cellQ cellR (by decide)

/-! ### Claim C8: the calibration point list never grows -/

theorem ingest_calibration_data (s : State) (line : List Char) (now : ℚ) :
    (ingestLine s line now).1.calibration_data = s.calibration_data := by
  unfold ingestLine
  cases hp : parse_can_message line with
  | none => rfl
  | some f =>
      show (logStep (recordFrame s f.canId f.bytes now) f.canId).1.calibration_data = _
      rw [(logStep_preserves _ _).2.2.2.1]
      rfl

theorem step_calibration_data (s : State) (e : Event) :
    (step s e).calibration_data = s.calibration_data := by
  cases e with
  | serialLine line now => exact ingest_calibration_data s line now
  | mouseClick c => cases c <;> rfl
  | keyA => rfl
  | keyT => rfl
  | keyReturn => rfl
  | keySpace => rfl
  | keyUp => rfl
  | keyDown => rfl
  | keyC => rfl
  | wheelUp => rfl
  | wheelDown => rfl

/-- Claim C8: no operation appends to the calibration point list — after
any sequence of ingestion, selection and keyboard events it is still
empty, so the linear-regression formula (which needs at least 2 points)
is never computed and a fit of the data reports insufficient data. -/
theorem calibration_data_stays_empty (es : List Event) :
    (runEvents es).calibration_data = [] ∧
    calculate_temperature_formula ((runEvents es).calibration_data) = .insufficientData := by
  have hempty : ∀ (es : List Event) (s : State),
      (es.foldl step s).calibration_data = s.calibration_data := by
    intro es
    induction es with
    | nil => exact fun s => rfl
    | cons e es ih => exact fun s => (ih (step s e)).trans (step_calibration_data s e)
  have h1 : (runEvents es).calibration_data = [] := hempty es initState
  refine ⟨h1, ?_⟩
  rw [h1]
  decide

/-! ### Claim C9: logging gated on the first-selected PID -/

/-- Claim C9: with 2 selected slots, the log line and the calibration
prompt are emitted only when the ingested frame carries the
first-selected slot's identifier and the post-update combined value
differs from the last logged one; a frame carrying (only) the
second-selected slot's distinct identifier emits nothing. -/
theorem log_only_first_pid (s : State) (line : List Char) (now : ℚ) (c1 c2 : Cell)
    (hsel : s.selected_cells = [c1, c2]) :
    ((ingestLine s line now).2 ≠ [] →
      ∃ f, parse_can_message line = some f ∧ f.canId = c1.1 ∧
        s.last_logged_combined ≠
          some ((((recordFrame s f.canId f.bytes now).current_values c1.1).getD c1.2 0) <<< 8 |||
            (((recordFrame s f.canId f.bytes now).current_values c2.1).getD c2.2 0))) ∧
    (∀ f, parse_can_message line = some f → f.canId = c2.1 → f.canId ≠ c1.1 →
      (ingestLine s line now).2 = []) := by
  unfold ingestLine
  cases hp : parse_can_message line with
  | none =>
      constructor
      · intro h
        exact absurd rfl h
      · intro f hf
        exact Option.noConfusion hf
  | some f =>
      have hs1 : (recordFrame s f.canId f.bytes now).selected_cells = [c1, c2] := by
        rw [(recordFrame_preserves s f.canId f.bytes now).2.1, hsel]
      have hll : (recordFrame s f.canId f.bytes now).last_logged_combined =
          s.last_logged_combined := (recordFrame_preserves s f.canId f.bytes now).2.2.2.2
      dsimp only
      unfold logStep
      rw [hs1]
      dsimp only
      split_ifs with hid hlog hcal
      · constructor
        · intro _
          exact ⟨f, rfl, hid, by rw [← hll]; exact hlog⟩
        · intro f' hf' hc2 hne
          cases Option.some.inj hf'
          exact absurd hid hne
      · constructor
        · intro _
          exact ⟨f, rfl, hid, by rw [← hll]; exact hlog⟩
        · intro f' hf' hc2 hne
          cases Option.some.inj hf'
          exact absurd hid hne
      · constructor
        · intro h
          exact absurd rfl h
        · intro _ _ _ _
          rfl
      · constructor
        · intro h
          exact absurd rfl h
        · intro _ _ _ _
          rfl

def sC9 : State :=
  { initState with selected_cells := [(("0x3C4".toList : Ident), 6), (("0x123".toList : Ident), 7)] }

/-- Witness for C9: a frame for the second-selected slot's PID `0x123`
(distinct from the first-selected PID `0x3C4`) emits no log output. -/
theorem log_only_first_pid_witness :
    (ingestLine sC9 ("a,b,0x123,c,0x41,0x00,0x00,0x00".toList) 5).2 = [] := by
  have h := log_only_first_pid sC9 ("a,b,0x123,c,0x41,0x00,0x00,0x00".toList) 5
    (("0x3C4".toList : Ident), 6) (("0x123".toList : Ident), 7) rfl
  exact h.2 ⟨"0x123".toList, [65, 0, 0, 0, 0, 0, 0, 0]⟩ (by decide) (by decide) (by decide)

/-! ### Claim C6: the digit-pair HVAC position lookup -/

/-- Claim C6: when both selected byte values are ASCII decimal digits
(0x30–0x39), the candidate right after the ASCII header reads the
two-digit string as a position and maps it through the fixed lookup —
60 to LOW 50 °F / 10 °C, 90 to HIGH 95 °F / 35 °C, 65–84 to
`position - 5` °F with Celsius `(F - 32) * 5 / 9`, and anything else to
an out-of-range report with no temperature. -/
theorem hvac_digit_pair_mapping (b0 b1 : Nat)
    (hl0 : 48 ≤ b0) (hu0 : b0 ≤ 57) (hl1 : 48 ≤ b1) (hu1 : b1 ≤ 57) :
    (calculate_temperature_values b0 (some b1))[1]? =
      some (if 10 * (b0 - 48) + (b1 - 48) = 60 then
              ⟨.hvacLow (10 * (b0 - 48) + (b1 - 48)), 10, 50, true⟩
            else if 10 * (b0 - 48) + (b1 - 48) = 90 then
              ⟨.hvacHigh (10 * (b0 - 48) + (b1 - 48)), 35, 95, true⟩
            else if 65 ≤ 10 * (b0 - 48) + (b1 - 48) ∧ 10 * (b0 - 48) + (b1 - 48) ≤ 84 then
              ⟨.hvacTemp (10 * (b0 - 48) + (b1 - 48) - 5) (10 * (b0 - 48) + (b1 - 48)),
                (((10 * (b0 - 48) + (b1 - 48) : Nat) : ℚ) - 5 - 32) * 5 / 9,
                ((10 * (b0 - 48) + (b1 - 48) : Nat) : ℚ) - 5, true⟩
            else ⟨.asciiPosition (10 * (b0 - 48) + (b1 - 48)), 0, 0, true⟩) := by
  interval_cases b0 <;> interval_cases b1 <;> rfl

/-- Witness for C6: bytes 0x36, 0x30 read as position 60 and report LOW,
50 °F, 10 °C. -/
theorem hvac_digit_pair_mapping_witness :
    (calculate_temperature_values 0x36 (some 0x30))[1]? =
      some ⟨.hvacLow 60, 10, 50, true⟩ := by
  have h := hvac_digit_pair_mapping 0x36 0x30 (by decide) (by decide) (by decide) (by decide)
  exact h.trans (by decide)

/-! ### Claim C7: byte-order checks and the additive filter -/

theorem comboCandidate_BE (v : Nat) : comboCandidate .BE v = [] := rfl

theorem comboCandidate_LE (v : Nat) : comboCandidate .LE v = [] := rfl

theorem comboSection_eq (b0 b1 : Nat) :
    comboSection b0 b1 = comboCandidate .ADD (b0 + b1) := by
  unfold comboSection comboList
  simp [comboCandidate_BE, comboCandidate_LE]

theorem addGuess_only_in_range (v1 v2 : Nat) :
    ∀ c ∈ calculate_temperature_values v1 (some v2), ∀ sum : Nat,
      c.desc = .addGuess sum →
      sum = v1 + v2 ∧ v1 + v2 < 200 ∧ 32 ≤ (v1 + v2 : Int) - 40 ∧
        (v1 + v2 : Int) - 40 ≤ 120 ∧ c.temp_f = (v1 + v2 : ℚ) - 40 := by
  intro c hc sum hdesc
  unfold calculate_temperature_values twoByteResults at hc
  dsimp only at hc
  rw [comboSection_eq] at hc
  simp only [List.mem_cons, List.mem_append] at hc
  rcases hc with rfl | (((hc | hc) | hc) | hc)
  · exact absurd hdesc (by simp)
  · unfold hvacSection at hc
    dsimp only at hc
    split_ifs at hc <;> simp only [List.mem_singleton, List.not_mem_nil] at hc <;>
      (subst hc; exact absurd hdesc (by simp))
  · unfold printabilitySection at hc
    split_ifs at hc <;> simp only [List.mem_singleton, List.not_mem_nil] at hc <;>
      (subst hc; exact absurd hdesc (by simp))
  · unfold legacySection at hc
    dsimp only at hc
    split_ifs at hc <;> simp only [List.mem_singleton, List.not_mem_nil] at hc <;>
      (subst hc; exact absurd hdesc (by simp))
  · unfold comboCandidate at hc
    dsimp only at hc
    split_ifs at hc with h1 h2 <;>
      simp only [List.mem_singleton, List.not_mem_nil] at hc
    subst hc
    have hd2 : Desc.addGuess (v1 + v2) = Desc.addGuess sum := hdesc
    injection hd2 with hs
    refine ⟨hs.symm, h1.2, by omega, by omega, ?_⟩
    show ((((v1 + v2 : Nat) : Int) - 40 : Int) : ℚ) = _
    push_cast
    ring

theorem addGuess_in_results (v1 v2 : Nat)
    (h1 : v1 + v2 < 200) (h2 : 32 ≤ (v1 + v2 : Int) - 40) (h3 : (v1 + v2 : Int) - 40 ≤ 120) :
    ∃ c ∈ calculate_temperature_values v1 (some v2),
      c.desc = .addGuess (v1 + v2) ∧ c.temp_f = (v1 + v2 : ℚ) - 40 ∧
        c.is_primary = false := by
  have hcomb : comboCandidate .ADD (v1 + v2) =
      [⟨.addGuess (v1 + v2),
        (((((v1 + v2 : Nat) : Int) - 40 : Int) : ℚ) - 32) * 5 / 9,
        ((((v1 + v2 : Nat) : Int) - 40 : Int) : ℚ), false⟩] := by
    unfold comboCandidate
    rw [if_pos ⟨rfl, h1⟩]
    dsimp only
    rw [if_pos ⟨by omega, by omega⟩]
  refine ⟨⟨.addGuess (v1 + v2),
      (((((v1 + v2 : Nat) : Int) - 40 : Int) : ℚ) - 32) * 5 / 9,
      ((((v1 + v2 : Nat) : Int) - 40 : Int) : ℚ), false⟩, ?_, rfl, ?_, rfl⟩
  · unfold calculate_temperature_values twoByteResults
    dsimp only
    rw [comboSection_eq, hcomb]
    simp
  · show ((((v1 + v2 : Nat) : Int) - 40 : Int) : ℚ) = _
    push_cast
    ring

/-- Claim C7: the two-byte interpretation enumerates the big-endian,
little-endian and additive combination checks, and an additive
temperature candidate (`sum - 40` °F) appears among the results exactly
when the sum is below 200 and `sum - 40` lies in [32, 120] °F; outside
those ranges it is omitted (and the byte-order checks never yield a
candidate at all). -/
theorem combo_checks_and_add_filter (v1 v2 : Nat) :
    comboList v1 v2 =
      [(.BE, (v1 <<< 8) ||| v2), (.LE, (v2 <<< 8) ||| v1), (.ADD, v1 + v2)] ∧
    (∀ c ∈ calculate_temperature_values v1 (some v2), ∀ sum : Nat,
      c.desc = .addGuess sum →
      sum = v1 + v2 ∧ v1 + v2 < 200 ∧ 32 ≤ (v1 + v2 : Int) - 40 ∧
        (v1 + v2 : Int) - 40 ≤ 120 ∧ c.temp_f = (v1 + v2 : ℚ) - 40) ∧
    ((v1 + v2 < 200 ∧ 32 ≤ (v1 + v2 : Int) - 40 ∧ (v1 + v2 : Int) - 40 ≤ 120) →
      ∃ c ∈ calculate_temperature_values v1 (some v2),
        c.desc = .addGuess (v1 + v2) ∧ c.temp_f = (v1 + v2 : ℚ) - 40 ∧
          c.is_primary = false) :=
  ⟨rfl, addGuess_only_in_range v1 v2,
    fun h => addGuess_in_results v1 v2 h.1 h.2.1 h.2.2⟩

/-- Witness for C7 at bytes 0x36 and 0x30: their sum 102 is below 200 and
102 - 40 = 62 °F lies in [32, 120], so the additive candidate appears. -/
theorem combo_checks_and_add_filter_witness :
    ∃ c ∈ calculate_temperature_values 54 (some 48),
      c.desc = .addGuess (54 + 48) ∧
      c.temp_f = (((54 : Nat) : ℚ) + ((48 : Nat) : ℚ)) - 40 ∧
      c.is_primary = false :=
  (combo_checks_and_add_filter 54 48).2.2 ⟨by norm_num, by norm_num, by norm_num⟩

end F150
